import Mathlib

/-!
Verification of the serial-port service core (driver-type classification,
USB identity resolution, device-event handling and the serial manager).
Rust strings handled by the parsers are embedded as lists of characters;
file contents are embedded as the list of their lines, with an IO failure
modelled as the absence of content.
-/

set_option maxRecDepth 4000

namespace SerialSvc

/-- Split of a character list at every position where the predicate holds,
keeping empty segments, mirroring the split of a Rust string at a pattern.
The accumulator holds the current segment reversed. -/
def splitPredAux (p : Char → Bool) : List Char → List Char → List (List Char)
  | [], acc => [acc.reverse]
  | c :: cs, acc =>
    if p c then acc.reverse :: splitPredAux p cs []
    else splitPredAux p cs (c :: acc)

/-- Split at every character satisfying the predicate, keeping empty segments. -/
def splitPred (p : Char → Bool) (s : List Char) : List (List Char) :=
  splitPredAux p s []

/-- Split at every occurrence of one character, mirroring a single-character
split pattern in Rust. -/
def splitOnChar (c : Char) (s : List Char) : List (List Char) :=
  splitPred (fun x => x = c) s

/-- Whitespace test used by the splitter and the trimmer. -/
def isWs (c : Char) : Bool := c.isWhitespace

/-- Embedding of the whitespace split of Rust: split at whitespace and drop
the empty segments. -/
def splitWhitespaceL (s : List Char) : List (List Char) :=
  (splitPred isWs s).filter (fun t => !t.isEmpty)

/-- Numeric value of a decimal digit character. -/
def digitVal (c : Char) : Nat := c.toNat - 48

/-- Value of a list of decimal digit characters. -/
def digitsToNat (s : List Char) : Nat :=
  s.foldl (fun acc c => acc * 10 + digitVal c) 0

/-- Embedding of the parse of a Rust u32 from a string: an optional leading
plus sign, then one or more decimal digits, with the value below 2 to the 32. -/
def parseU32 (s : List Char) : Option Nat :=
  let t := if s.headD ' ' = '+' then s.tail else s
  if t.isEmpty then none
  else if t.all Char.isDigit then
    let n := digitsToNat t
    if n < 2 ^ 32 then some n else none
  else none

/-- A parsed line of the driver table, embedding the DriverInfo struct; the
inclusive minor range is carried as its two bounds. -/
structure DriverInfo where
  major : Nat
  minorLo : Nat
  minorHi : Nat
  driverType : List Char
deriving DecidableEq

/-- Outcome of processing one line of the driver table: an empty line is
skipped, a well-formed line yields an entry, anything else aborts the reload. -/
inductive ParseOutcome where
  | skip : ParseOutcome
  | entry : DriverInfo → ParseOutcome
  | err : ParseOutcome
deriving DecidableEq

/-- Portion of a field before the first colon, embedding the take of the first
segment of a colon split. -/
def beforeColon (s : List Char) : List Char :=
  (splitOnChar ':' s).headD []

/-- Embedding of the minor-range parse: the field is split at dashes, the lower
bound is the first segment, the upper bound is the second segment when present
and the first segment again otherwise, and both must parse as u32. -/
def parseMinorRange (s : List Char) : Option (Nat × Nat) :=
  let ps := splitOnChar '-' s
  let lo := ps.headD []
  let hi := (ps.drop 1).headD lo
  match parseU32 lo, parseU32 hi with
  | some a, some b => some (a, b)
  | _, _ => none

/-- Processing of one line of the driver table, embedding one iteration of the
reload loop: split into whitespace-separated fields, skip an empty line, abort
unless there are exactly five fields, take the driver type from the portion of
field five before the first colon, the major number from field three and the
minor range from field four, aborting when a numeric field fails to parse. -/
def parseDriverLine (line : List Char) : ParseOutcome :=
  let parts := splitWhitespaceL line
  if parts.isEmpty then ParseOutcome.skip
  else if parts.length ≠ 5 then ParseOutcome.err
  else
    match parseU32 (parts.getD 2 []), parseMinorRange (parts.getD 3 []) with
    | some maj, some range =>
        ParseOutcome.entry ⟨maj, range.1, range.2, beforeColon (parts.getD 4 [])⟩
    | _, _ => ParseOutcome.err

/-- Loop of the reload, pushing each parsed entry onto the cache that was
cleared at the start, and stopping at the first malformed line with the
entries pushed so far still in place. The boolean reports success. -/
def readDriversAux : List (List Char) → List DriverInfo → List DriverInfo × Bool
  | [], acc => (acc, true)
  | line :: rest, acc =>
    match parseDriverLine line with
    | ParseOutcome.skip => readDriversAux rest acc
    | ParseOutcome.entry d => readDriversAux rest (acc ++ [d])
    | ParseOutcome.err => (acc, false)

/-- Embedding of the reload of the driver cache from the table file. The old
cache is cleared first; when reading the file fails (content absent) the cache
stays empty, otherwise the lines are processed in order. Returns the cache
contents after the reload and whether the reload succeeded. -/
def read_drivers_from_file (oldCache : List DriverInfo)
    (content : Option (List (List Char))) : List DriverInfo × Bool :=
  let cleared : List DriverInfo := []
  match content with
  | none => (cleared, false)
  | some ls => readDriversAux ls cleared

/-- Match of a cache entry against a device number: exact major equality and
the minor within the inclusive minor range. -/
def matchesDev (d : DriverInfo) (major minor : Nat) : Bool :=
  d.major = major && (d.minorLo ≤ minor && minor ≤ d.minorHi)

/-- Embedding of the cache lookup: the driver type of the first entry in table
order whose major matches and whose minor range contains the minor. -/
def find_in_cache (cache : List DriverInfo) (major minor : Nat) : Option (List Char) :=
  (cache.find? (fun d => matchesDev d major minor)).map (fun d => d.driverType)

/-- Embedding of the lookup with reload on miss: return a cache hit directly;
otherwise reload the cache from the file, propagating a reload failure, and
retry the lookup exactly once on the reloaded cache. Returns the cache after
the call and the result, with errors collapsed to none. -/
def find_by_devnum (cache : List DriverInfo) (content : Option (List (List Char)))
    (major minor : Nat) : List DriverInfo × Option (List Char) :=
  match find_in_cache cache major minor with
  | some t => (cache, some t)
  | none =>
    let r := read_drivers_from_file cache content
    if r.2 then (r.1, find_in_cache r.1 major minor)
    else (r.1, none)

/-- Entries of the longest prefix of lines processed before the first
malformed line (all entries when no line is malformed). -/
def goodEntries : List (List Char) → List DriverInfo
  | [] => []
  | line :: rest =>
    match parseDriverLine line with
    | ParseOutcome.skip => goodEntries rest
    | ParseOutcome.entry d => d :: goodEntries rest
    | ParseOutcome.err => []

/-- Whether every line of the file is well formed. -/
def linesOk : List (List Char) → Bool
  | [] => true
  | line :: rest =>
    match parseDriverLine line with
    | ParseOutcome.skip => linesOk rest
    | ParseOutcome.entry _ => linesOk rest
    | ParseOutcome.err => false

/-- Trim of leading and trailing whitespace, embedding the trim of Rust. -/
def trimWs (s : List Char) : List Char :=
  ((s.dropWhile isWs).reverse.dropWhile isWs).reverse

/-- Numeric value of a hexadecimal digit character, when it is one. -/
def hexDigitVal (c : Char) : Option Nat :=
  if '0' ≤ c ∧ c ≤ '9' then some (c.toNat - 48)
  else if 'a' ≤ c ∧ c ≤ 'f' then some (c.toNat - 97 + 10)
  else if 'A' ≤ c ∧ c ≤ 'F' then some (c.toNat - 65 + 10)
  else none

/-- Value of a non-empty list of hexadecimal digit characters. -/
def hexToNat : List Char → Option Nat
  | [] => none
  | [c] => hexDigitVal c
  | c :: rest => do
    let d ← hexDigitVal c
    let r ← hexToNat rest
    pure (d * 16 ^ rest.length + r)

/-- Embedding of the base-16 parse of a Rust i32 from a string: an optional
sign, then one or more hexadecimal digits, with the magnitude within the
i32 range. -/
def parseHexI32 (s : List Char) : Option Int :=
  if s.headD ' ' = '+' then
    (hexToNat s.tail).bind fun n => if n ≤ 2 ^ 31 - 1 then some (n : Int) else none
  else if s.headD ' ' = '-' then
    (hexToNat s.tail).bind fun n => if n ≤ 2 ^ 31 then some (-(n : Int)) else none
  else
    (hexToNat s).bind fun n => if n ≤ 2 ^ 31 - 1 then some (n : Int) else none

/-- Ancestor with the usb subsystem, carrying the raw contents of its
vendor-id and product-id attribute files, absent when the file is missing. -/
structure UsbAncestor where
  idVendor : Option (List Char)
  idProduct : Option (List Char)
deriving DecidableEq

/-- Embedding of the hexadecimal attribute read: fetch the attribute value,
trim whitespace, and parse it as a base-16 i32; errors collapse to none. -/
def read_hex_attr (attr : Option (List Char)) : Option Int :=
  attr.bind fun value => parseHexI32 (trimWs value)

/-- Embedding of the USB identity walk: visit the chain of usb-subsystem
ancestors from nearest to farthest, and return at the first one whose
vendor-id attribute reads as hexadecimal, pairing it with that ancestor's
product id or minus one when that read fails; when no ancestor has a readable
vendor id the result is the pair of minus ones. Total by construction. -/
def find_for_device : List UsbAncestor → Int × Int
  | [] => (-1, -1)
  | a :: rest =>
    match read_hex_attr a.idVendor with
    | some v => (v, (read_hex_attr a.idProduct).getD (-1))
    | none => find_for_device rest

/-- Embedding of the SerialPortInfo parcelable. -/
structure SerialPortInfo where
  name : String
  subsystem : String
  driverType : List Char
  vendorId : Int
  productId : Int
deriving DecidableEq

/-- Kind of a listener callback. -/
inductive NotifKind where
  | connected : SerialPortInfo → NotifKind
  | disconnected : SerialPortInfo → NotifKind
deriving DecidableEq

/-- Record of one attempted listener notification: the listener handle, the
callback kind, and whether the delivery succeeded (a failed delivery is
logged and otherwise ignored by the manager). -/
structure Notification where
  listener : Nat
  kind : NotifKind
  delivered : Bool
deriving DecidableEq

/-- State of the serial manager together with the driver-type finder cache it
shares with the device-events handler, and the trace of attempted listener
notifications. The port registry is an association list with distinct keys,
embedding the hash map keyed by port name; the listener set is the list of
registered listener handles in iteration order. -/
structure ManagerState where
  serial_ports : List (String × SerialPortInfo)
  listeners : List Nat
  cache : List DriverInfo
  notifs : List Notification
deriving DecidableEq

/-- Lookup in the port registry by name. -/
def lookupPort (m : List (String × SerialPortInfo)) (k : String) : Option SerialPortInfo :=
  (m.find? (fun e => e.1 = k)).map (fun e => e.2)

/-- Insert or overwrite in the port registry, embedding a hash-map insert:
the first entry with the key is replaced in place, a fresh key is appended. -/
def insertPort (m : List (String × SerialPortInfo)) (k : String) (v : SerialPortInfo) :
    List (String × SerialPortInfo) :=
  match m with
  | [] => [(k, v)]
  | e :: rest => if e.1 = k then (k, v) :: rest else e :: insertPort rest k v

/-- Removal from the port registry, embedding a hash-map remove. -/
def erasePort (m : List (String × SerialPortInfo)) (k : String) :
    List (String × SerialPortInfo) :=
  match m with
  | [] => []
  | e :: rest => if e.1 = k then rest else e :: erasePort rest k

/-- Embedding of the added callback of the manager: insert or overwrite the
record keyed by its name, then attempt a connected notification to every
registered listener in order; the delivery outcome comes from the oracle and a
failure affects nothing beyond its own record. -/
def on_device_added (deliver : Nat → Bool) (st : ManagerState) (info : SerialPortInfo) :
    ManagerState :=
  { st with
    serial_ports := insertPort st.serial_ports info.name info
    notifs := st.notifs ++
      st.listeners.map (fun h => ⟨h, NotifKind.connected info, deliver h⟩) }

/-- Embedding of the removed callback of the manager: when the name is absent
do nothing; otherwise remove the entry and attempt a disconnected notification
to every registered listener using the record captured before the removal. -/
def on_device_removed (deliver : Nat → Bool) (st : ManagerState) (name : String) :
    ManagerState :=
  match lookupPort st.serial_ports name with
  | none => st
  | some info =>
    { st with
      serial_ports := erasePort st.serial_ports name
      notifs := st.notifs ++
        st.listeners.map (fun h => ⟨h, NotifKind.disconnected info, deliver h⟩) }

/-- The uid of the system server. -/
def AID_SYSTEM : Nat := 1000

/-- The uid of root. -/
def AID_ROOT : Nat := 0

/-- Embedding of the permission check: only the system server or root while
testing may call; the result is whether the caller passes. -/
def check_permissions (calling_uid : Nat) : Bool :=
  !(calling_uid ≠ AID_SYSTEM && calling_uid ≠ AID_ROOT)

/-- Errors surfaced by the service operations. -/
inductive SMError where
  | security : SMError
  | illegalArgument : SMError
  | duplicateListener : SMError
  | listenerNotFound : SMError
deriving DecidableEq

/-- Embedding of the map insert of the listener set: the listener entry stored
for a handle is built from that handle (a clone of its listener and a fresh,
never linked death recipient), so the map is determined by its key set and an
insert on a present key replaces the value with an equal one. Returns the set
after the insert and whether the key was already present. -/
def listenersInsert (m : List Nat) (h : Nat) : List Nat × Bool :=
  if h ∈ m then (m, true) else (m ++ [h], false)

/-- Embedding of listener registration: after the permission check, insert the
entry keyed by the remote handle of the listener, and fail with the duplicate
listener error when the handle was already present. -/
def registerSerialPortListener (calling_uid : Nat) (m : List Nat) (h : Nat) :
    List Nat × Except SMError Unit :=
  if !check_permissions calling_uid then (m, Except.error SMError.security)
  else
    let r := listenersInsert m h
    if r.2 then (r.1, Except.error SMError.duplicateListener)
    else (r.1, Except.ok ())

/-- Embedding of listener unregistration: after the permission check, remove
the entry for the handle, failing with the not-found error when absent. -/
def unregisterSerialPortListener (calling_uid : Nat) (m : List Nat) (h : Nat) :
    List Nat × Except SMError Unit :=
  if !check_permissions calling_uid then (m, Except.error SMError.security)
  else if h ∈ m then (m.erase h, Except.ok ())
  else (m, Except.error SMError.listenerNotFound)

/-- Embedding of the port listing: no permission check, a snapshot of the
registry values for every caller. -/
def getSerialPorts (_calling_uid : Nat) (ports : List (String × SerialPortInfo)) :
    Except SMError (List SerialPortInfo) :=
  Except.ok (ports.map (fun e => e.2))

/-- Flag constants of the platform libc. -/
def O_RDONLY : Nat := 0

/-- Write-only access flag. -/
def O_WRONLY : Nat := 1

/-- Read-write access flag. -/
def O_RDWR : Nat := 2

/-- Flag preventing the opened terminal from becoming the controlling
terminal of the process. -/
def O_NOCTTY : Nat := 256

/-- Description of the filesystem open and terminal control performed by a
successful open request: the device path, the read and write intent of the
open options, the raw custom flags passed through, and whether exclusive mode
is set rather than cleared on the descriptor. Flags are carried as 32-bit
patterns embedded in Nat. -/
structure OpenSpec where
  path : String
  readIntent : Bool
  writeIntent : Bool
  customFlags : Nat
  exclusiveMode : Bool
deriving DecidableEq

/-- Open description built by the open request for a registered port,
mirroring the open-options builder: read intent from the read access bits of
the flags, write intent from the write access bits, the no-controlling-
terminal flag always added to the custom flags, and the terminal exclusivity
control chosen by the exclusive argument. -/
def openSpecFor (port_name : String) (flags : Nat) (exclusive : Bool) : OpenSpec :=
  { path := "/dev/" ++ port_name
    readIntent := flags &&& (O_RDONLY ||| O_RDWR) ≠ 0
    writeIntent := flags &&& (O_WRONLY ||| O_RDWR) ≠ 0
    customFlags := flags ||| O_NOCTTY
    exclusiveMode := exclusive }

/-- Embedding of the open request: after the permission check, fail with the
illegal argument error when the port name is not registered, before any
filesystem access; otherwise describe the open of the device node and the
terminal-exclusivity control. An error result carries no open description, so
no filesystem open occurs on the failure paths. -/
def requestOpen (calling_uid : Nat) (ports : List (String × SerialPortInfo))
    (port_name : String) (flags : Nat) (exclusive : Bool) : Except SMError OpenSpec :=
  if !check_permissions calling_uid then Except.error SMError.security
  else if (lookupPort ports port_name).isNone then Except.error SMError.illegalArgument
  else Except.ok (openSpecFor port_name flags exclusive)

/-- Kind of a device event. -/
inductive EventType where
  | add : EventType
  | remove : EventType
deriving DecidableEq

/-- Shape of a device event: a device node carrying the path of the node as
its components, or any other shape. -/
inductive DeviceType where
  | deviceNode : List String → DeviceType
  | other : DeviceType
deriving DecidableEq

/-- Sysfs view of the device attached to an event: its own subsystem when
readable, and the chain of its usb-subsystem ancestors from nearest to
farthest. -/
structure Device where
  subsystemOpt : Option String
  usbAncestors : List UsbAncestor
deriving DecidableEq

/-- Device event as consumed by the handler. The devnum field is the result
of the filesystem metadata query for the device node (absent on an IO
failure), made part of the event because the filesystem is external. -/
structure DeviceEvent where
  event_type : EventType
  device_type : DeviceType
  devnum : Option (Nat × Nat)
  device : Device
deriving DecidableEq

/-- Final component of a path, embedding the file-name query of a Rust path:
none for an empty path or one ending in a parent-directory component. -/
def fileName (path : List String) : Option String :=
  match path.getLast? with
  | none => none
  | some c => if c = ".." then none else some c

/-- Port record assembled for an added device: the terminal name, the
subsystem of the device defaulting to virtual, the found driver type, and the
resolved USB identity. -/
def mkPortInfo (name : String) (dev : Device) (driver_type : List Char) : SerialPortInfo :=
  let usb := find_for_device dev.usbAncestors
  { name := name
    subsystem := dev.subsystemOpt.getD "virtual"
    driverType := driver_type
    vendorId := usb.1
    productId := usb.2 }

/-- Embedding of the handling of one device event: an event that is not a
device node is logged and dropped; a node path without a file name is
dropped; an add event is classified through the driver-type finder (which may
reload the shared cache) and dropped silently when classification fails,
otherwise the assembled record is passed to the added callback; a remove
event passes just the name to the removed callback. Total by construction. -/
def handle_device_event (deliver : Nat → Bool) (fileContent : Option (List (List Char)))
    (st : ManagerState) (ev : DeviceEvent) : ManagerState :=
  match ev.device_type with
  | DeviceType.other => st
  | DeviceType.deviceNode devnode_path =>
    match fileName devnode_path with
    | none => st
    | some name =>
      match ev.event_type with
      | EventType.add =>
        match ev.devnum with
        | none => st
        | some mm =>
          let r := find_by_devnum st.cache fileContent mm.1 mm.2
          let st1 := { st with cache := r.1 }
          match r.2 with
          | none => st1
          | some driver_type =>
            on_device_added deliver st1 (mkPortInfo name ev.device driver_type)
      | EventType.remove => on_device_removed deliver st name

/-- Run of the event loop over a list of events, processing them strictly in
order, one at a time. -/
def run_events (deliver : Nat → Bool) (fileContent : Option (List (List Char)))
    (st : ManagerState) : List DeviceEvent → ManagerState
  | [] => st
  | ev :: evs => run_events deliver fileContent (handle_device_event deliver fileContent st ev) evs

/-- Classification result of an add event as seen by the handler: the
metadata query result fed through the lookup with reload. -/
def classifyAdd (cache : List DriverInfo) (fileContent : Option (List (List Char)))
    (devnum : Option (Nat × Nat)) : Option (List Char) :=
  devnum.bind fun mm => (find_by_devnum cache fileContent mm.1 mm.2).2

theorem readDriversAux_eq (ls : List (List Char)) :
    ∀ acc, readDriversAux ls acc = (acc ++ goodEntries ls, linesOk ls) := by
  induction ls with
  | nil => intro acc; simp [readDriversAux, goodEntries, linesOk]
  | cons line rest ih =>
    intro acc
    cases h : parseDriverLine line with
    | skip => simp [readDriversAux, goodEntries, linesOk, h, ih]
    | entry d => simp [readDriversAux, goodEntries, linesOk, h, ih]
    | err => simp [readDriversAux, goodEntries, linesOk, h]

theorem read_drivers_some_eq (oldCache : List DriverInfo) (ls : List (List Char)) :
    read_drivers_from_file oldCache (some ls) = (goodEntries ls, linesOk ls) := by
  simp [read_drivers_from_file, readDriversAux_eq]

theorem linesOk_false_of_err (line : List Char) :
    ∀ ls : List (List Char), line ∈ ls → parseDriverLine line = ParseOutcome.err →
      linesOk ls = false := by
  intro ls
  induction ls with
  | nil => intro h; exact absurd h (by simp)
  | cons l rest ih =>
    intro hmem herr
    rcases List.mem_cons.mp hmem with rfl | hmem'
    · simp [linesOk, herr]
    · cases h : parseDriverLine l with
      | skip => simp [linesOk, h, ih hmem' herr]
      | entry d => simp [linesOk, h, ih hmem' herr]
      | err => simp [linesOk, h]

/-- C1: the counterexample to the claim as stated. With a table file whose
first line is well formed and whose second line is malformed, the reload
triggered by a cache miss fails, yet it leaves the cache holding the entry of
the first line: a partial table, neither the full parsed contents of the file
nor empty. -/
theorem C1_counterexample :
    (read_drivers_from_file []
        (some ["serial /dev/ttyS 4 64-95 serial".toList, "bad".toList])).2 = false ∧
    (read_drivers_from_file []
        (some ["serial /dev/ttyS 4 64-95 serial".toList, "bad".toList])).1 =
      [⟨4, 64, 95, "serial".toList⟩] ∧
    ([⟨4, 64, 95, "serial".toList⟩] : List DriverInfo) ≠ [] ∧
    find_by_devnum [] (some ["serial /dev/ttyS 4 64-95 serial".toList, "bad".toList]) 4 80 =
      ([⟨4, 64, 95, "serial".toList⟩], none) := by
  refine ⟨by decide, by decide, by decide, by decide⟩

/-- C1 (amended): a reload triggered by a cache miss first discards every
pre-reload entry, so the cache never mixes old and new entries and the result
does not depend on the old cache; when the file cannot be read the cache is
left empty; when every line is well formed the cache afterwards is exactly
the parsed contents of the file; but a reload that fails on a malformed line
leaves the cache holding the entries parsed before the offending line, a
possibly non-empty partial table. -/
theorem C1_reload_cache (oldCache : List DriverInfo) (content : Option (List (List Char))) :
    read_drivers_from_file oldCache content = read_drivers_from_file [] content ∧
    (content = none → read_drivers_from_file oldCache content = ([], false)) ∧
    (∀ ls, content = some ls →
      read_drivers_from_file oldCache content = (goodEntries ls, linesOk ls)) := by
  refine ⟨rfl, ?_, ?_⟩
  · rintro rfl; rfl
  · rintro ls rfl
    exact read_drivers_some_eq oldCache ls

theorem C1_reload_cache_witness :
    read_drivers_from_file [⟨1, 2, 3, "pty".toList⟩] (some ["bad".toList]) =
      (goodEntries ["bad".toList], linesOk ["bad".toList]) :=
  (C1_reload_cache [⟨1, 2, 3, "pty".toList⟩] (some ["bad".toList])).2.2 ["bad".toList] rfl

theorem find?_first_iff {α : Type} (p : α → Bool) :
    ∀ (l : List α) (a : α),
      l.find? p = some a ↔
        ∃ pre post, l = pre ++ a :: post ∧ p a = true ∧ ∀ b ∈ pre, p b = false := by
  intro l
  induction l with
  | nil =>
    intro a
    constructor
    · intro h; simp at h
    · rintro ⟨pre, post, h, -, -⟩
      exact absurd h (by simp)
  | cons x xs ih =>
    intro a
    by_cases hp : p x = true
    · rw [List.find?_cons_of_pos _ hp]
      constructor
      · intro h
        obtain rfl : x = a := by injection h
        exact ⟨[], xs, rfl, hp, by intro b hb; simp at hb⟩
      · rintro ⟨pre, post, heq, hpa, hpre⟩
        cases pre with
        | nil =>
          obtain ⟨rfl, -⟩ : x = a ∧ xs = post := by simpa using heq
          rfl
        | cons y pre' =>
          obtain ⟨rfl, -⟩ : x = y ∧ xs = pre' ++ a :: post := by simpa using heq
          exact absurd hp (by simp [hpre x (by simp)])
    · have hp' : p x = false := by simpa using hp
      rw [List.find?_cons_of_neg _ (by simp [hp'])]
      rw [ih a]
      constructor
      · rintro ⟨pre, post, rfl, hpa, hpre⟩
        refine ⟨x :: pre, post, rfl, hpa, ?_⟩
        intro b hb
        rcases List.mem_cons.mp hb with rfl | hb'
        · exact hp'
        · exact hpre b hb'
      · rintro ⟨pre, post, heq, hpa, hpre⟩
        cases pre with
        | nil =>
          obtain ⟨rfl, -⟩ : x = a ∧ xs = post := by simpa using heq
          exact absurd hpa (by simp [hp'])
        | cons y pre' =>
          obtain ⟨rfl, heq'⟩ : x = y ∧ xs = pre' ++ a :: post := by simpa using heq
          exact ⟨pre', post, heq', hpa, fun b hb => hpre b (by simp [hb])⟩

/-- C5: the cache lookup returns the driver type of the first entry in table
order whose major matches and whose inclusive minor range contains the minor;
a hit returns without reload; on a miss the cache is reloaded from the table
file and the lookup retried exactly once on the reloaded cache, a reload
failure or a second miss yielding the error with no further retries. -/
theorem C5_lookup_semantics (cache : List DriverInfo) (content : Option (List (List Char)))
    (major minor : Nat) :
    (∀ t, find_in_cache cache major minor = some t ↔
       ∃ pre d post, cache = pre ++ d :: post ∧ matchesDev d major minor = true ∧
         (∀ e ∈ pre, matchesDev e major minor = false) ∧ t = d.driverType) ∧
    (∀ t, find_in_cache cache major minor = some t →
       find_by_devnum cache content major minor = (cache, some t)) ∧
    (find_in_cache cache major minor = none →
       find_by_devnum cache content major minor =
         ((read_drivers_from_file cache content).1,
          if (read_drivers_from_file cache content).2 then
            find_in_cache (read_drivers_from_file cache content).1 major minor
          else none)) := by
  refine ⟨?_, ?_, ?_⟩
  · intro t
    constructor
    · intro h
      obtain ⟨d, hd, rfl⟩ : ∃ d, cache.find? (fun d => matchesDev d major minor) = some d ∧
          t = d.driverType := by
        unfold find_in_cache at h
        cases hf : cache.find? (fun d => matchesDev d major minor) with
        | none => rw [hf] at h; simp at h
        | some d => rw [hf] at h; exact ⟨d, rfl, by simpa using h.symm⟩
      obtain ⟨pre, post, hsplit, hpa, hpre⟩ := (find?_first_iff _ cache d).mp hd
      exact ⟨pre, d, post, hsplit, hpa, hpre, rfl⟩
    · rintro ⟨pre, d, post, hsplit, hpa, hpre, rfl⟩
      have hd : cache.find? (fun d => matchesDev d major minor) = some d :=
        (find?_first_iff _ cache d).mpr ⟨pre, post, hsplit, hpa, hpre⟩
      unfold find_in_cache
      rw [hd]; rfl
  · intro t h
    unfold find_by_devnum
    rw [h]
  · intro h
    unfold find_by_devnum
    rw [h]
    by_cases hr : (read_drivers_from_file cache content).2 = true <;> simp [hr]

theorem C5_lookup_semantics_witness :
    find_by_devnum [⟨4, 64, 95, "serial".toList⟩] none 4 80 =
      ([⟨4, 64, 95, "serial".toList⟩], some "serial".toList) :=
  (C5_lookup_semantics [⟨4, 64, 95, "serial".toList⟩] none 4 80).2.1
    "serial".toList (by decide)

theorem splitPredAux_of_none (p : Char → Bool) :
    ∀ (s : List Char) (acc : List Char), (∀ x ∈ s, p x = false) →
      splitPredAux p s acc = [acc.reverse ++ s] := by
  intro s
  induction s with
  | nil => intro acc _; simp [splitPredAux]
  | cons c cs ih =>
    intro acc h
    have hc : p c = false := h c (by simp)
    simp only [splitPredAux, hc, Bool.false_eq_true, if_false]
    rw [ih (c :: acc) (fun x hx => h x (by simp [hx]))]
    simp

theorem splitPredAux_of_hit (p : Char → Bool) (c : Char) (b : List Char) (hc : p c = true) :
    ∀ (a : List Char) (acc : List Char), (∀ x ∈ a, p x = false) →
      splitPredAux p (a ++ c :: b) acc = (acc.reverse ++ a) :: splitPredAux p b [] := by
  intro a
  induction a with
  | nil => intro acc _; simp [splitPredAux, hc]
  | cons x a' ih =>
    intro acc h
    have hx : p x = false := h x (by simp)
    simp only [List.cons_append, splitPredAux, hx, Bool.false_eq_true, if_false,
      List.append_eq]
    rw [ih (x :: acc) (fun y hy => h y (by simp [hy]))]
    simp

theorem splitOnChar_not_mem (c : Char) (s : List Char) (h : c ∉ s) :
    splitOnChar c s = [s] := by
  unfold splitOnChar splitPred
  rw [splitPredAux_of_none]
  · simp
  · intro x hx
    simp only [decide_eq_false_iff_not]
    rintro rfl
    exact h hx

theorem splitOnChar_append (c : Char) (a b : List Char) (h : c ∉ a) :
    splitOnChar c (a ++ c :: b) = a :: splitOnChar c b := by
  unfold splitOnChar splitPred
  rw [splitPredAux_of_hit]
  · simp
  · simp
  · intro x hx
    simp only [decide_eq_false_iff_not]
    rintro rfl
    exact h hx

theorem parseU32_all_digits (s : List Char) (n : Nat) (h : parseU32 s = some n) :
    ∃ t, (s = t ∨ s = '+' :: t) ∧ t.all Char.isDigit = true := by
  unfold parseU32 at h
  by_cases hp : s.headD ' ' = '+'
  · simp only [hp, if_true] at h
    refine ⟨s.tail, Or.inr ?_, ?_⟩
    · cases s with
      | nil => exact absurd hp (by decide)
      | cons c r => simp only [List.headD_cons] at hp; simp [hp]
    · by_cases he : s.tail.isEmpty
      · simp [he] at h
      · by_cases hd : s.tail.all Char.isDigit
        · exact hd
        · simp [he, hd] at h
  · simp only [hp, if_false] at h
    refine ⟨s, Or.inl rfl, ?_⟩
    by_cases he : s.isEmpty
    · simp [he] at h
    · by_cases hd : s.all Char.isDigit
      · exact hd
      · simp [he, hd] at h

theorem parseU32_no_dash (s : List Char) (n : Nat) (h : parseU32 s = some n) : '-' ∉ s := by
  obtain ⟨t, hst, hall⟩ := parseU32_all_digits s n h
  intro hmem
  have hdig : ('-' : Char).isDigit = true := by
    rcases hst with rfl | rfl
    · exact List.all_eq_true.mp hall '-' hmem
    · rcases List.mem_cons.mp hmem with hc | hm
      · exact absurd hc (by decide)
      · exact List.all_eq_true.mp hall '-' hm
  exact absurd hdig (by decide)

/-- C6: table-parsing rules. An all-whitespace line is skipped; a non-empty
line that does not split into exactly five whitespace-separated fields aborts
the whole reload, as does any line whose numeric fields fail to parse; a
well-formed line yields an entry whose driver type is the portion of field
five before the first colon, whose major number is field three, and whose
minor range is field four read either as a single number N, giving the
degenerate range from N to N, or as two dash-separated numbers lo-hi, giving
the range from lo to hi. -/
theorem C6_table_rules :
    (∀ line, splitWhitespaceL line = [] → parseDriverLine line = ParseOutcome.skip) ∧
    (∀ line, splitWhitespaceL line ≠ [] → (splitWhitespaceL line).length ≠ 5 →
        parseDriverLine line = ParseOutcome.err) ∧
    (∀ line ls oldCache, line ∈ ls → parseDriverLine line = ParseOutcome.err →
        (read_drivers_from_file oldCache (some ls)).2 = false) ∧
    (∀ line maj range, (splitWhitespaceL line).length = 5 →
        parseU32 ((splitWhitespaceL line).getD 2 []) = some maj →
        parseMinorRange ((splitWhitespaceL line).getD 3 []) = some range →
        parseDriverLine line =
          ParseOutcome.entry
            ⟨maj, range.1, range.2, beforeColon ((splitWhitespaceL line).getD 4 [])⟩) ∧
    (∀ line, (splitWhitespaceL line).length = 5 →
        (parseU32 ((splitWhitespaceL line).getD 2 []) = none ∨
         parseMinorRange ((splitWhitespaceL line).getD 3 []) = none) →
        parseDriverLine line = ParseOutcome.err) ∧
    (∀ s n, parseU32 s = some n → parseMinorRange s = some (n, n)) ∧
    (∀ a b lo hi, '-' ∉ a → '-' ∉ b → parseU32 a = some lo → parseU32 b = some hi →
        parseMinorRange (a ++ '-' :: b) = some (lo, hi)) := by
  refine ⟨?_, ?_, ?_, ?_, ?_, ?_, ?_⟩
  · intro line hempty
    unfold parseDriverLine
    simp [hempty]
  · intro line hne hlen
    unfold parseDriverLine
    rw [if_neg (by simpa [List.isEmpty_iff] using hne), if_pos hlen]
  · intro line ls oldCache hmem herr
    rw [read_drivers_some_eq]
    exact linesOk_false_of_err line ls hmem herr
  · intro line maj range hlen hmaj hrange
    unfold parseDriverLine
    rw [if_neg (by simp [List.isEmpty_iff, show splitWhitespaceL line ≠ [] from
      fun h => by simp [h] at hlen]), if_neg (by simp [hlen])]
    rw [hmaj, hrange]
  · intro line hlen hbad
    unfold parseDriverLine
    rw [if_neg (by simp [List.isEmpty_iff, show splitWhitespaceL line ≠ [] from
      fun h => by simp [h] at hlen]), if_neg (by simp [hlen])]
    rcases hbad with hm | hr
    · rw [hm]
    · rw [hr]
      cases parseU32 ((splitWhitespaceL line).getD 2 []) <;> rfl
  · intro s n h
    have hnd := parseU32_no_dash s n h
    unfold parseMinorRange
    rw [splitOnChar_not_mem '-' s hnd]
    simp [h]
  · intro a b lo hi ha hb hlo hhi
    unfold parseMinorRange
    rw [splitOnChar_append '-' a b ha, splitOnChar_not_mem '-' b hb]
    simp [hlo, hhi]

theorem C6_table_rules_witness :
    parseDriverLine "pty_slave /dev/pts 136 0-1048575 pty:slave".toList =
      ParseOutcome.entry ⟨136, 0, 1048575, "pty".toList⟩ :=
  C6_table_rules.2.2.2.1 "pty_slave /dev/pts 136 0-1048575 pty:slave".toList
    136 (0, 1048575) (by decide) (by decide) (by decide)

theorem find_for_device_all_none (ancestors : List UsbAncestor)
    (h : ∀ a ∈ ancestors, read_hex_attr a.idVendor = none) :
    find_for_device ancestors = (-1, -1) := by
  induction ancestors with
  | nil => rfl
  | cons a rest ih =>
    have ha : read_hex_attr a.idVendor = none := h a (by simp)
    simp only [find_for_device, ha]
    exact ih (fun b hb => h b (by simp [hb]))

theorem find_for_device_first (a : UsbAncestor) (post : List UsbAncestor) (v : Int) :
    ∀ pre : List UsbAncestor, (∀ b ∈ pre, read_hex_attr b.idVendor = none) →
      read_hex_attr a.idVendor = some v →
      find_for_device (pre ++ a :: post) = (v, (read_hex_attr a.idProduct).getD (-1)) := by
  intro pre
  induction pre with
  | nil =>
    intro _ hv
    simp [find_for_device, hv]
  | cons b pre' ih =>
    intro h hv
    have hb : read_hex_attr b.idVendor = none := h b (by simp)
    simp only [List.cons_append, find_for_device, hb]
    exact ih (fun x hx => h x (by simp [hx])) hv

/-- C7: the USB identity walk is total by construction and returns the vendor
id of the nearest usb-subsystem ancestor whose vendor-id attribute parses as
hexadecimal after trimming, paired with that ancestor's product id or minus
one when the product-id attribute is missing or malformed, stopping at the
first such ancestor even when farther ones exist; when no ancestor in the
chain has a readable vendor id the result is the pair of minus ones. -/
theorem C7_usb_identity (ancestors : List UsbAncestor) :
    ((∀ a ∈ ancestors, read_hex_attr a.idVendor = none) →
        find_for_device ancestors = (-1, -1)) ∧
    (∀ pre a post v, ancestors = pre ++ a :: post →
        (∀ b ∈ pre, read_hex_attr b.idVendor = none) →
        read_hex_attr a.idVendor = some v →
        find_for_device ancestors = (v, (read_hex_attr a.idProduct).getD (-1))) := by
  refine ⟨find_for_device_all_none ancestors, ?_⟩
  rintro pre a post v rfl hpre hv
  exact find_for_device_first a post v pre hpre hv

theorem C7_usb_identity_witness :
    find_for_device
        [⟨none, none⟩,
         ⟨some " 0694\n".toList, some "0009\n".toList⟩,
         ⟨some "ffff".toList, none⟩] = (0x0694, 0x0009) :=
  (C7_usb_identity
      [⟨none, none⟩,
       ⟨some " 0694\n".toList, some "0009\n".toList⟩,
       ⟨some "ffff".toList, none⟩]).2
    [⟨none, none⟩] ⟨some " 0694\n".toList, some "0009\n".toList⟩ [⟨some "ffff".toList, none⟩]
    0x0694 rfl (by decide) (by decide)

/-- C2: registering a listener whose handle is already in the listener set
fails with the duplicate-listener error and leaves the set unchanged, and
unregistering a handle that is not in the set fails with the not-found
error. -/
theorem C2_listener_registration (uid : Nat) (m : List Nat) (h : Nat) :
    check_permissions uid = true →
    ((h ∈ m → registerSerialPortListener uid m h =
        (m, Except.error SMError.duplicateListener)) ∧
     (h ∉ m → unregisterSerialPortListener uid m h =
        (m, Except.error SMError.listenerNotFound))) := by
  intro hperm
  constructor
  · intro hmem
    simp [registerSerialPortListener, listenersInsert, hperm, hmem]
  · intro hmem
    simp [unregisterSerialPortListener, hperm, hmem]

theorem C2_listener_registration_witness :
    registerSerialPortListener 1000 [5] 5 = ([5], Except.error SMError.duplicateListener) ∧
    unregisterSerialPortListener 1000 [5] 6 = ([5], Except.error SMError.listenerNotFound) :=
  ⟨(C2_listener_registration 1000 [5] 5 (by decide)).1 (by decide),
   (C2_listener_registration 1000 [5] 6 (by decide)).2 (by decide)⟩

/-- C9: an open request for a port name not present in the registry fails
with the illegal-argument error; the error result carries no open
description, so no filesystem open of the device node is performed. -/
theorem C9_open_unregistered (uid : Nat) (ports : List (String × SerialPortInfo))
    (port_name : String) (flags : Nat) (exclusive : Bool) :
    check_permissions uid = true →
    lookupPort ports port_name = none →
    requestOpen uid ports port_name flags exclusive =
      Except.error SMError.illegalArgument := by
  intro hperm habs
  simp [requestOpen, hperm, habs]

theorem C9_open_unregistered_witness :
    requestOpen 0 [] "ttyS0" 2 true = Except.error SMError.illegalArgument :=
  C9_open_unregistered 0 [] "ttyS0" 2 true (by decide) (by decide)

theorem land_two_ne_zero (n : Nat) : (n &&& 2 ≠ 0) ↔ n.testBit 1 = true := by
  rw [show (2 : Nat) = 2 ^ 1 by norm_num, Nat.and_two_pow]
  cases h : n.testBit 1 <;> simp

theorem land_three_ne_zero (n : Nat) :
    (n &&& 3 ≠ 0) ↔ (n.testBit 0 = true ∨ n.testBit 1 = true) := by
  constructor
  · intro h
    by_contra hc
    push_neg at hc
    obtain ⟨h0, h1⟩ := hc
    apply h
    apply Nat.eq_of_testBit_eq
    intro i
    rw [Nat.testBit_and]
    match i with
    | 0 => simp [Bool.eq_false_iff.mpr h0]
    | 1 => simp [Bool.eq_false_iff.mpr h1]
    | (k + 2) =>
      have h3 : Nat.testBit 3 (k + 2) = false := by
        apply Nat.testBit_eq_false_of_lt
        calc (3 : Nat) < 2 ^ 2 := by norm_num
        _ ≤ 2 ^ (k + 2) := Nat.pow_le_pow_right (by norm_num) (by omega)
      simp [h3]
  · intro h hz
    rcases h with h | h
    · have h0 : (n &&& 3).testBit 0 = false := by rw [hz]; simp
      rw [Nat.testBit_and, h] at h0
      exact absurd h0 (by decide)
    · have h1 : (n &&& 3).testBit 1 = false := by rw [hz]; simp
      rw [Nat.testBit_and, h] at h1
      exact absurd h1 (by decide)

/-- C3: an open request for a registered port succeeds with an open
description of the device node under /dev slash the port name whose read
intent holds exactly when the flags carry the read access bit, whose write
intent holds exactly when the flags carry a write access bit, whose custom
flags always include the no-controlling-terminal flag (bit eight) whatever
the caller passed, and whose terminal-exclusivity control sets exclusive mode
when the exclusive argument is true and clears it when false. -/
theorem C3_open_flags (uid : Nat) (ports : List (String × SerialPortInfo))
    (port_name : String) (flags : Nat) (exclusive : Bool) (inf : SerialPortInfo) :
    check_permissions uid = true →
    lookupPort ports port_name = some inf →
    (requestOpen uid ports port_name flags exclusive =
        Except.ok (openSpecFor port_name flags exclusive) ∧
     (openSpecFor port_name flags exclusive).path = "/dev/" ++ port_name ∧
     ((openSpecFor port_name flags exclusive).readIntent = true ↔ flags.testBit 1 = true) ∧
     ((openSpecFor port_name flags exclusive).writeIntent = true ↔
        (flags.testBit 0 = true ∨ flags.testBit 1 = true)) ∧
     (openSpecFor port_name flags exclusive).customFlags.testBit 8 = true ∧
     (openSpecFor port_name flags exclusive).exclusiveMode = exclusive) := by
  intro hperm hfound
  refine ⟨by simp [requestOpen, hperm, hfound], rfl, ?_, ?_, ?_, rfl⟩
  · rw [show (openSpecFor port_name flags exclusive).readIntent =
        decide (flags &&& 2 ≠ 0) from rfl]
    rw [decide_eq_true_iff]
    exact land_two_ne_zero flags
  · rw [show (openSpecFor port_name flags exclusive).writeIntent =
        decide (flags &&& 3 ≠ 0) from rfl]
    rw [decide_eq_true_iff]
    exact land_three_ne_zero flags
  · show (flags ||| O_NOCTTY).testBit 8 = true
    rw [Nat.testBit_lor]
    simp only [O_NOCTTY]
    rw [show Nat.testBit 256 8 = true by decide]
    simp

theorem C3_open_flags_witness :
    requestOpen 1000 [("ttyACM0", ⟨"ttyACM0", "usb", "serial".toList, 1684, 9⟩)]
        "ttyACM0" 2 true =
      Except.ok (openSpecFor "ttyACM0" 2 true) :=
  (C3_open_flags 1000 [("ttyACM0", ⟨"ttyACM0", "usb", "serial".toList, 1684, 9⟩)]
      "ttyACM0" 2 true ⟨"ttyACM0", "usb", "serial".toList, 1684, 9⟩
      (by decide) (by decide)).1

/-- C10: the listener registration, listener unregistration and open
operations fail with the security error, before any state change or any open
description is produced, exactly when the calling uid is neither the system
uid nor the root uid; the port listing performs no permission check and
succeeds for every caller uid. -/
theorem C10_permission_gate (uid : Nat) (m : List Nat) (h : Nat)
    (ports : List (String × SerialPortInfo)) (port_name : String) (flags : Nat)
    (exclusive : Bool) :
    (check_permissions uid = false ↔ (uid ≠ AID_SYSTEM ∧ uid ≠ AID_ROOT)) ∧
    (check_permissions uid = false →
        registerSerialPortListener uid m h = (m, Except.error SMError.security) ∧
        unregisterSerialPortListener uid m h = (m, Except.error SMError.security) ∧
        requestOpen uid ports port_name flags exclusive = Except.error SMError.security) ∧
    (check_permissions uid = true →
        (registerSerialPortListener uid m h).2 ≠ Except.error SMError.security ∧
        (unregisterSerialPortListener uid m h).2 ≠ Except.error SMError.security ∧
        requestOpen uid ports port_name flags exclusive ≠ Except.error SMError.security) ∧
    getSerialPorts uid ports = Except.ok (ports.map (fun e => e.2)) := by
  refine ⟨?_, ?_, ?_, rfl⟩
  · simp [check_permissions]
  · intro hfail
    exact ⟨by simp [registerSerialPortListener, hfail],
      by simp [unregisterSerialPortListener, hfail],
      by simp [requestOpen, hfail]⟩
  · intro hok
    refine ⟨?_, ?_, ?_⟩
    · by_cases hmem : h ∈ m <;>
        simp [registerSerialPortListener, listenersInsert, hok, hmem]
    · by_cases hmem : h ∈ m <;>
        simp [unregisterSerialPortListener, hok, hmem]
    · by_cases habs : (lookupPort ports port_name).isNone <;>
        simp [requestOpen, hok, habs]

theorem C10_permission_gate_witness :
    registerSerialPortListener 5 [] 1 = ([], Except.error SMError.security) ∧
    unregisterSerialPortListener 5 [] 1 = ([], Except.error SMError.security) ∧
    requestOpen 5 [] "ttyS0" 2 true = Except.error SMError.security :=
  (C10_permission_gate 5 [] 1 [] "ttyS0" 2 true).2.1 (by decide)

theorem lookupPort_insert (m : List (String × SerialPortInfo)) (k : String)
    (v : SerialPortInfo) : lookupPort (insertPort m k v) k = some v := by
  induction m with
  | nil => simp [insertPort, lookupPort]
  | cons e rest ih =>
    by_cases he : e.1 = k
    · simp [insertPort, lookupPort, he]
    · simp only [insertPort, he, Bool.false_eq_true, if_false]
      simpa [lookupPort, List.find?, he] using ih

theorem lookupPort_not_mem (m : List (String × SerialPortInfo)) (k : String)
    (h : k ∉ m.map Prod.fst) : lookupPort m k = none := by
  induction m with
  | nil => rfl
  | cons e rest ih =>
    have he : e.1 ≠ k := fun hc => h (by simp [hc])
    have hr : k ∉ rest.map Prod.fst := fun hc => h (by simp [hc])
    simpa [lookupPort, List.find?, he] using ih hr

theorem lookup_erase_insert (m : List (String × SerialPortInfo)) (k : String)
    (v : SerialPortInfo) (hnd : (m.map Prod.fst).Nodup) :
    lookupPort (erasePort (insertPort m k v) k) k = none := by
  induction m with
  | nil => simp [insertPort, erasePort, lookupPort]
  | cons e rest ih =>
    have hnd' : (rest.map Prod.fst).Nodup := (List.nodup_cons.mp (by simpa using hnd)).2
    have hni : e.1 ∉ rest.map Prod.fst := (List.nodup_cons.mp (by simpa using hnd)).1
    by_cases he : e.1 = k
    · simp only [insertPort, he, if_true]
      simp only [erasePort, if_pos rfl]
      exact lookupPort_not_mem rest k (he ▸ hni)
    · simp only [insertPort, he, Bool.false_eq_true, if_false]
      simp only [erasePort, he, Bool.false_eq_true, if_false]
      simpa [lookupPort, List.find?, he] using ih hnd'

/-- C4: handling of a device event is a total function and never ends the
event loop: an event whose shape is not a device node is logged and dropped
with the state untouched, an event whose node path has no valid terminal name
segment is dropped, an add event whose classification fails is dropped
silently (only the shared driver cache may have been refreshed), and the loop
always continues with the next event from the resulting state. -/
theorem C4_event_totality (deliver : Nat → Bool) (fileContent : Option (List (List Char)))
    (st : ManagerState) (ev : DeviceEvent) (evs : List DeviceEvent) :
    (ev.device_type = DeviceType.other →
        handle_device_event deliver fileContent st ev = st) ∧
    (∀ p, ev.device_type = DeviceType.deviceNode p → fileName p = none →
        handle_device_event deliver fileContent st ev = st) ∧
    (ev.event_type = EventType.add →
        classifyAdd st.cache fileContent ev.devnum = none →
        (handle_device_event deliver fileContent st ev).serial_ports = st.serial_ports ∧
        (handle_device_event deliver fileContent st ev).notifs = st.notifs ∧
        (handle_device_event deliver fileContent st ev).listeners = st.listeners) ∧
    (run_events deliver fileContent st (ev :: evs) =
        run_events deliver fileContent (handle_device_event deliver fileContent st ev) evs) := by
  obtain ⟨et, dt, dn, dev⟩ := ev
  refine ⟨?_, ?_, ?_, rfl⟩
  · intro h
    simp only at h
    subst h
    rfl
  · intro p h hfn
    simp only at h
    subst h
    simp [handle_device_event, hfn]
  · intro het hcls
    simp only at het
    subst het
    cases dt with
    | other => exact ⟨rfl, rfl, rfl⟩
    | deviceNode p =>
      cases hfn : fileName p with
      | none => simp [handle_device_event, hfn]
      | some name =>
        cases dn with
        | none => simp [handle_device_event, hfn]
        | some mm =>
          simp only [classifyAdd, Option.some_bind] at hcls
          simp [handle_device_event, hfn, hcls]

theorem C4_event_totality_witness :
    handle_device_event (fun _ => true) none ⟨[], [7], [], []⟩
        ⟨EventType.add, DeviceType.other, none, ⟨none, []⟩⟩ = ⟨[], [7], [], []⟩ :=
  (C4_event_totality (fun _ => true) none ⟨[], [7], [], []⟩
      ⟨EventType.add, DeviceType.other, none, ⟨none, []⟩⟩ []).1 rfl

/-- C8: the added callback inserts or overwrites the record keyed by its name
and then notifies every registered listener, a single delivery failure
neither blocking the other listeners nor undoing the registry insertion (the
registry and the set of attempted notifications do not depend on the delivery
oracle); the removed callback is a no-op for an absent name, and for a
present name removes the entry and notifies all listeners with the
pre-removal record; consequently an add event immediately followed by a
remove event for the same name leaves the registry without that name and
fires exactly one connected and then one disconnected notification per
listener, in that order. -/
theorem C8_registry_callbacks (deliver deliver2 : Nat → Bool) (st : ManagerState)
    (info : SerialPortInfo) (name : String) :
    ((on_device_added deliver st info).serial_ports =
        insertPort st.serial_ports info.name info ∧
     lookupPort (on_device_added deliver st info).serial_ports info.name = some info ∧
     (on_device_added deliver st info).listeners = st.listeners ∧
     (on_device_added deliver st info).notifs =
        st.notifs ++ st.listeners.map (fun h => ⟨h, NotifKind.connected info, deliver h⟩) ∧
     (on_device_added deliver st info).serial_ports =
        (on_device_added deliver2 st info).serial_ports ∧
     (on_device_added deliver st info).notifs.map (fun n => (n.listener, n.kind)) =
        (on_device_added deliver2 st info).notifs.map (fun n => (n.listener, n.kind))) ∧
    (lookupPort st.serial_ports name = none → on_device_removed deliver st name = st) ∧
    (∀ inf, lookupPort st.serial_ports name = some inf →
        (on_device_removed deliver st name).serial_ports = erasePort st.serial_ports name ∧
        (on_device_removed deliver st name).notifs =
          st.notifs ++ st.listeners.map (fun h => ⟨h, NotifKind.disconnected inf, deliver h⟩)) ∧
    (∀ fileContent p dev dn dn2 dev2 c2 dt,
        (st.serial_ports.map Prod.fst).Nodup →
        fileName p = some name →
        find_by_devnum st.cache fileContent dn.1 dn.2 = (c2, some dt) →
        lookupPort (run_events deliver fileContent st
            [⟨EventType.add, DeviceType.deviceNode p, some dn, dev⟩,
             ⟨EventType.remove, DeviceType.deviceNode p, dn2, dev2⟩]).serial_ports name =
          none ∧
        (run_events deliver fileContent st
            [⟨EventType.add, DeviceType.deviceNode p, some dn, dev⟩,
             ⟨EventType.remove, DeviceType.deviceNode p, dn2, dev2⟩]).notifs =
          st.notifs ++
            st.listeners.map
              (fun h => ⟨h, NotifKind.connected (mkPortInfo name dev dt), deliver h⟩) ++
            st.listeners.map
              (fun h => ⟨h, NotifKind.disconnected (mkPortInfo name dev dt), deliver h⟩)) := by
  refine ⟨⟨rfl, ?_, rfl, rfl, rfl, by simp [on_device_added]⟩, ?_, ?_, ?_⟩
  · exact lookupPort_insert st.serial_ports info.name info
  · intro habs
    simp [on_device_removed, habs]
  · intro inf hpres
    simp [on_device_removed, hpres]
  · intro fileContent p dev dn dn2 dev2 c2 dt hnd hfn hfind
    have hstep1 : handle_device_event deliver fileContent st
        ⟨EventType.add, DeviceType.deviceNode p, some dn, dev⟩ =
        on_device_added deliver { st with cache := c2 } (mkPortInfo name dev dt) := by
      simp [handle_device_event, hfn, hfind]
    have hlook : lookupPort
        (on_device_added deliver { st with cache := c2 } (mkPortInfo name dev dt)).serial_ports
        name = some (mkPortInfo name dev dt) :=
      lookupPort_insert st.serial_ports name (mkPortInfo name dev dt)
    have hstep2 : run_events deliver fileContent st
        [⟨EventType.add, DeviceType.deviceNode p, some dn, dev⟩,
         ⟨EventType.remove, DeviceType.deviceNode p, dn2, dev2⟩] =
        on_device_removed deliver
          (on_device_added deliver { st with cache := c2 } (mkPortInfo name dev dt)) name := by
      simp only [run_events, hstep1]
      simp [handle_device_event, hfn]
    rw [hstep2]
    constructor
    · simp only [on_device_removed, hlook]
      exact lookup_erase_insert st.serial_ports name (mkPortInfo name dev dt) hnd
    · simp only [on_device_removed, hlook]
      simp [on_device_added]

theorem C8_registry_callbacks_witness :
    lookupPort (run_events (fun _ => true)
        (some ["serial /dev/ttyS 4 64-95 serial".toList]) ⟨[], [7], [], []⟩
        [⟨EventType.add, DeviceType.deviceNode ["dev", "ttyS0"], some (4, 80),
            ⟨some "serial-base", []⟩⟩,
         ⟨EventType.remove, DeviceType.deviceNode ["dev", "ttyS0"], none,
            ⟨some "serial-base", []⟩⟩]).serial_ports "ttyS0" = none :=
  ((C8_registry_callbacks (fun _ => true) (fun _ => false) ⟨[], [7], [], []⟩
      ⟨"ttyS0", "serial-base", "serial".toList, -1, -1⟩ "ttyS0").2.2.2
    (some ["serial /dev/ttyS 4 64-95 serial".toList]) ["dev", "ttyS0"]
    ⟨some "serial-base", []⟩ (4, 80) none ⟨some "serial-base", []⟩
    [⟨4, 64, 95, "serial".toList⟩] "serial".toList
    (by decide) (by decide) (by decide)).1

end SerialSvc
